import Mathlib

/-!
Verification of the paginated, rate-limited fetch engine of
`src/restAPI.py` (repository Future-Billionaires).

Dates are modelled as day ordinals (`Nat`): the Python code parses
`YYYY-MM-DD` strings into `datetime` objects and manipulates them only
through `+ timedelta(days = k)` and comparisons, which is exactly the
arithmetic and order of day numbers.  For the concrete examples all dates
lie in January/February 2024, so we use the day-of-year-2024 ordinal.

The remote provider (`client.list_aggs` of the polygon client) is modelled
as a function from a chunk's `(from_, to)` day pair to
`Except String (List RawAgg)`: `Except.error e` models the provider
raising an exception whose textual form is `e`, `Except.ok aggs` models a
successful response materialised into a list (the code does
`aggs = list(aggs_response)`).
-/

namespace RestAPI

/-- The `timespan` argument of the Python functions
(`'minute' | 'hour' | 'day' | 'week' | 'month'`). -/
inductive Timespan where
  | minute
  | hour
  | day
  | week
  | month
deriving DecidableEq

/-- A raw provider record as consumed in `get_historical_data`
(src/restAPI.py lines 52-61): fields `timestamp` (ms), `open`, `high`,
`low`, `close`, `volume`, and the optional `vwap` and `transactions`
(accessed with `getattr(a, field, None)`, hence `Option` here). -/
structure RawAgg where
  timestamp : Nat
  «open» : Int
  high : Int
  low : Int
  close : Int
  volume : Nat
  vwap : Option Int
  transactions : Option Nat
deriving DecidableEq

/-- One row of the DataFrame built in `get_historical_data`
(src/restAPI.py lines 52-61); the spec's `BarRecord`. -/
structure BarRecord where
  timestamp : Nat
  «open» : Int
  high : Int
  low : Int
  close : Int
  volume : Nat
  vwap : Option Int
  transactions : Option Nat
deriving DecidableEq

/-- The dict built for each raw record `a` in `get_historical_data`
(src/restAPI.py lines 52-61): every field is copied from `a`;
`vwap` and `transactions` via `getattr(a, _, None)`, so a missing
field becomes `none` instead of failing the record. -/
def to_bar_record (a : RawAgg) : BarRecord :=
  { timestamp := a.timestamp
    «open» := a.«open»
    high := a.high
    low := a.low
    close := a.close
    volume := a.volume
    vwap := a.vwap
    transactions := a.transactions }

/-- The error classification of src/restAPI.py lines 71-74: the raised
exception's text is matched for the markers `NOT_AUTHORIZED` and
`RATE_LIMIT` (Python `in` is substring containment). -/
inductive FailureClass where
  | Unauthorized
  | RateLimited
  | Unknown
deriving DecidableEq

/-- Does `pattern` occur as a contiguous run inside the character
list? -/
def contains_sub (pattern : List Char) : List Char → Bool
  | [] => pattern.isEmpty
  | c :: rest => pattern.isPrefixOf (c :: rest) || contains_sub pattern rest

/-- Substring containment, modelling Python's `marker in str(e)`. -/
def contains_marker (e marker : String) : Bool :=
  contains_sub marker.data e.data

/-- Classification of a provider error message per src/restAPI.py
lines 71-74: `NOT_AUTHORIZED` in the text gives `Unauthorized`, else
`RATE_LIMIT` gives `RateLimited`, else the error is unclassified. -/
def classify_error (e : String) : FailureClass :=
  if contains_marker e "NOT_AUTHORIZED" then FailureClass.Unauthorized
  else if contains_marker e "RATE_LIMIT" then FailureClass.RateLimited
  else FailureClass.Unknown

/-- `get_historical_data` (src/restAPI.py lines 10-75) reduced to its
data flow: `resp` is the outcome of the single `client.list_aggs` call.
On an exception (`Except.error`) the whole body is caught and an empty
DataFrame is returned (lines 68-75); on success, an empty result list
returns an empty DataFrame (lines 47-49), otherwise each record is mapped
to a row (lines 52-61). -/
def get_historical_data (resp : Except String (List RawAgg)) : List BarRecord :=
  match resp with
  | Except.error _ => []
  | Except.ok aggs =>
      if aggs = [] then []
      else aggs.map to_bar_record

/-- `chunk_days = 7 if timespan == "minute" else 30`
(src/restAPI.py line 97). -/
def chunk_days (timespan : Timespan) : Nat :=
  if timespan = Timespan.minute then 7 else 30

/-- The chunk sub-ranges generated by the `while current_start <= end_dt`
loop of `get_paginated_data` (src/restAPI.py lines 100-122), as inclusive
day-ordinal pairs.  Each iteration emits
`(current_start, min (current_start + chunk_days) end_dt)` and advances
the cursor to one day past the chunk's end.  `fuel` bounds the recursion;
`end_dt + 1 - current_start` iterations always suffice. -/
def chunk_loop (cd end_dt : Nat) : Nat → Nat → List (Nat × Nat)
  | 0, _ => []
  | fuel + 1, current_start =>
      if current_start ≤ end_dt then
        (current_start, min (current_start + cd) end_dt) ::
          chunk_loop cd end_dt fuel (min (current_start + cd) end_dt + 1)
      else []

/-- The full list of chunk sub-ranges planned by `get_paginated_data`
for the range `[start_dt, end_dt]`. -/
def get_paginated_chunks (cd start_dt end_dt : Nat) : List (Nat × Nat) :=
  chunk_loop cd end_dt (end_dt + 1 - start_dt) start_dt

/-- The `all_data` accumulation loop of `get_paginated_data`
(src/restAPI.py lines 99-127): for each chunk the chunk's DataFrame is
fetched via `get_historical_data`, and appended to `all_data` only when
non-empty (line 117). -/
def paginate_loop (provider : Nat → Nat → Except String (List RawAgg))
    (cd end_dt : Nat) :
    Nat → Nat → List (List BarRecord) → List (List BarRecord)
  | 0, _, all_data => all_data
  | fuel + 1, current_start, all_data =>
      if current_start ≤ end_dt then
        let current_end := min (current_start + cd) end_dt
        let chunk_df := get_historical_data (provider current_start current_end)
        paginate_loop provider cd end_dt fuel (current_end + 1)
          (if chunk_df = [] then all_data else all_data ++ [chunk_df])
      else all_data

/-- The final combine of `get_paginated_data` (src/restAPI.py lines
129-134): `pd.concat(all_data)` when `all_data` is non-empty, else an
empty DataFrame.  Concatenation of row lists is `List.flatten`. -/
def combine_all_data (all_data : List (List BarRecord)) : List BarRecord :=
  if all_data = [] then [] else all_data.flatten

/-- `get_paginated_data` (src/restAPI.py lines 77-134): plans chunks with
`chunk_days timespan`, fetches each through `get_historical_data`, keeps
the non-empty chunk DataFrames, and finally concatenates them
(`pd.concat`, lines 130-132) or returns an empty DataFrame when nothing
was collected (line 134). -/
def get_paginated_data (provider : Nat → Nat → Except String (List RawAgg))
    (start_dt end_dt : Nat) (timespan : Timespan) : List BarRecord :=
  combine_all_data
    (paginate_loop provider (chunk_days timespan) end_dt
      (end_dt + 1 - start_dt) start_dt [])

/-- The events of one `get_paginated_data` call, in program order:
`fetch_chunk s e` is the `get_historical_data` call for the sub-range
`[s, e]` (line 115), `sleep_wait` is the 12-second `time.sleep`
(line 127). -/
inductive FetchEvent where
  | fetch_chunk (s e : Nat)
  | sleep_wait
deriving DecidableEq

/-- The event trace of the `get_paginated_data` loop
(src/restAPI.py lines 102-127): each iteration fetches its chunk, then
advances the cursor, then sleeps only if another chunk remains
(`if current_start <= end_dt` at line 125). -/
def trace_loop (cd end_dt : Nat) : Nat → Nat → List FetchEvent
  | 0, _ => []
  | fuel + 1, current_start =>
      if current_start ≤ end_dt then
        FetchEvent.fetch_chunk current_start (min (current_start + cd) end_dt) ::
          ((if min (current_start + cd) end_dt + 1 ≤ end_dt
              then [FetchEvent.sleep_wait] else []) ++
            trace_loop cd end_dt fuel (min (current_start + cd) end_dt + 1))
      else []

/-- Full event trace of one `get_paginated_data` call. -/
def paginate_trace (cd start_dt end_dt : Nat) : List FetchEvent :=
  trace_loop cd end_dt (end_dt + 1 - start_dt) start_dt

/-- Day-of-year ordinal for a date in January or February 2024
(sufficient for the concrete dates of the examples: January has 31
days). -/
def dayOfYear2024 (month day : Nat) : Nat :=
  if month = 1 then day else 31 + day

/-- The date normalization in `main` (src/restAPI.py lines 270-272):
`if start_date > end_date: swap`.  It is `main`, not
`get_paginated_data`, that performs this swap. -/
def main_swap (start_date end_date : Nat) : Nat × Nat :=
  if start_date > end_date then (end_date, start_date)
  else (start_date, end_date)

/-- A concrete provider record (timestamp 2024-01-01T00:00:00Z in
milliseconds), used to instantiate theorems at concrete inputs. -/
def sample_agg : RawAgg :=
  { timestamp := 1704067200000
    «open» := 100
    high := 110
    low := 95
    close := 105
    volume := 1000
    vwap := none
    transactions := none }

/-! ### Structure of the planned chunks -/

/-- With enough fuel, every chunk lies inside `[s, e]` and is a
well-formed inclusive range. -/
theorem chunk_loop_mem (cd e : Nat) :
    ∀ fuel s, e + 1 - s ≤ fuel →
      ∀ c ∈ chunk_loop cd e fuel s, s ≤ c.1 ∧ c.1 ≤ c.2 ∧ c.2 ≤ e := by
  intro fuel
  induction fuel with
  | zero =>
      intro s hfuel c hc
      simp [chunk_loop] at hc
  | succ fuel ih =>
      intro s hfuel c hc
      by_cases hse : s ≤ e
      · rw [chunk_loop, if_pos hse] at hc
        have hmin1 : s ≤ min (s + cd) e := le_min (Nat.le_add_right s cd) hse
        have hmin2 : min (s + cd) e ≤ e := min_le_right _ _
        rcases List.mem_cons.mp hc with hc | hc
        · subst hc
          exact ⟨le_rfl, hmin1, hmin2⟩
        · have hfuel' : e + 1 - (min (s + cd) e + 1) ≤ fuel := by omega
          have := ih (min (s + cd) e + 1) hfuel' c hc
          exact ⟨by omega, this.2.1, this.2.2⟩
      · rw [chunk_loop, if_neg hse] at hc
        simp at hc

/-- With enough fuel, a chunk exists around every day of `[s, e]`. -/
theorem chunk_loop_cover (cd e : Nat) :
    ∀ fuel s, e + 1 - s ≤ fuel →
      ∀ d, s ≤ d → d ≤ e →
        ∃ c ∈ chunk_loop cd e fuel s, c.1 ≤ d ∧ d ≤ c.2 := by
  intro fuel
  induction fuel with
  | zero =>
      intro s hfuel d hsd hde
      omega
  | succ fuel ih =>
      intro s hfuel d hsd hde
      have hse : s ≤ e := le_trans hsd hde
      rw [chunk_loop, if_pos hse]
      have hmin1 : s ≤ min (s + cd) e := le_min (Nat.le_add_right s cd) hse
      by_cases hd : d ≤ min (s + cd) e
      · exact ⟨(s, min (s + cd) e), List.mem_cons_self _ _, hsd, hd⟩
      · have hfuel' : e + 1 - (min (s + cd) e + 1) ≤ fuel := by omega
        obtain ⟨c, hc, hc1, hc2⟩ := ih (min (s + cd) e + 1) hfuel' d (by omega) hde
        exact ⟨c, List.mem_cons_of_mem _ hc, hc1, hc2⟩

/-- The loop emits no chunk when the cursor is already past the end. -/
theorem chunk_loop_nil (cd e : Nat) (fuel s : Nat) (h : e < s) :
    chunk_loop cd e fuel s = [] := by
  cases fuel with
  | zero => rfl
  | succ fuel => rw [chunk_loop, if_neg (by omega)]

/-- With fuel and a cursor not past the end, the first chunk starts at
the cursor and ends at `min (cursor + cd) e`. -/
theorem chunk_loop_head (cd e : Nat) (fuel s : Nat) (hse : s ≤ e)
    (hfuel : e + 1 - s ≤ fuel) :
    (chunk_loop cd e fuel s).head? = some (s, min (s + cd) e) := by
  cases fuel with
  | zero => omega
  | succ fuel => rw [chunk_loop, if_pos hse]; rfl

/-- Consecutive chunks are contiguous: each next chunk starts one day
after the previous chunk ends. -/
theorem chunk_loop_chain (cd e : Nat) :
    ∀ fuel s, e + 1 - s ≤ fuel →
      List.Chain' (fun c1 c2 => c2.1 = c1.2 + 1) (chunk_loop cd e fuel s) := by
  intro fuel
  induction fuel with
  | zero =>
      intro s hfuel
      simp [chunk_loop]
  | succ fuel ih =>
      intro s hfuel
      by_cases hse : s ≤ e
      · rw [chunk_loop, if_pos hse]
        have hmin1 : s ≤ min (s + cd) e := le_min (Nat.le_add_right s cd) hse
        have hfuel' : e + 1 - (min (s + cd) e + 1) ≤ fuel := by omega
        refine List.chain'_cons'.mpr ⟨?_, ih (min (s + cd) e + 1) hfuel'⟩
        intro c hc
        by_cases hnext : min (s + cd) e + 1 ≤ e
        · rw [chunk_loop_head cd e fuel (min (s + cd) e + 1) hnext hfuel'] at hc
          simp only [Option.mem_def, Option.some.injEq] at hc
          rw [← hc]
        · rw [chunk_loop_nil cd e fuel (min (s + cd) e + 1) (by omega)] at hc
          simp at hc
      · rw [chunk_loop, if_neg hse]
        exact List.chain'_nil

/-- Chunks are pairwise disjoint and ordered ascending: every earlier
chunk ends strictly before every later chunk starts. -/
theorem chunk_loop_pairwise (cd e : Nat) :
    ∀ fuel s, e + 1 - s ≤ fuel →
      List.Pairwise (fun c1 c2 => c1.2 < c2.1) (chunk_loop cd e fuel s) := by
  intro fuel
  induction fuel with
  | zero =>
      intro s hfuel
      simp [chunk_loop]
  | succ fuel ih =>
      intro s hfuel
      by_cases hse : s ≤ e
      · rw [chunk_loop, if_pos hse]
        have hmin1 : s ≤ min (s + cd) e := le_min (Nat.le_add_right s cd) hse
        have hfuel' : e + 1 - (min (s + cd) e + 1) ≤ fuel := by omega
        refine List.pairwise_cons.mpr ⟨?_, ih (min (s + cd) e + 1) hfuel'⟩
        intro c hc
        have := chunk_loop_mem cd e fuel (min (s + cd) e + 1) hfuel' c hc
        omega
      · rw [chunk_loop, if_neg hse]
        exact List.Pairwise.nil

/-- Every chunk ends at most `cd` days after it starts (regardless of
fuel): its end is `min (start + cd) e ≤ start + cd`. -/
theorem chunk_loop_span (cd e : Nat) :
    ∀ fuel s, ∀ c ∈ chunk_loop cd e fuel s, c.2 ≤ c.1 + cd := by
  intro fuel
  induction fuel with
  | zero =>
      intro s c hc
      simp [chunk_loop] at hc
  | succ fuel ih =>
      intro s c hc
      by_cases hse : s ≤ e
      · rw [chunk_loop, if_pos hse] at hc
        rcases List.mem_cons.mp hc with hc | hc
        · subst hc
          exact min_le_left _ _
        · exact ih (min (s + cd) e + 1) c hc
      · rw [chunk_loop, if_neg hse] at hc
        simp at hc

/-! ### Claim theorems -/

/-- C1: for every `start_dt ≤ end_dt` and granularity `minute` or
`hour`, the chunks of the pagination loop are well-formed inclusive
ranges, contiguous (each next chunk starts one day after the previous
chunk ends), non-overlapping and ordered ascending, and their union is
exactly `[start_dt, end_dt]`. -/
theorem chunks_partition_range (timespan : Timespan)
    (hts : timespan = Timespan.minute ∨ timespan = Timespan.hour)
    (start_dt end_dt : Nat) (hse : start_dt ≤ end_dt) :
    (∀ c ∈ get_paginated_chunks (chunk_days timespan) start_dt end_dt,
        c.1 ≤ c.2) ∧
    List.Chain' (fun c1 c2 => c2.1 = c1.2 + 1)
      (get_paginated_chunks (chunk_days timespan) start_dt end_dt) ∧
    List.Pairwise (fun c1 c2 => c1.2 < c2.1)
      (get_paginated_chunks (chunk_days timespan) start_dt end_dt) ∧
    (∀ d : Nat,
      (∃ c ∈ get_paginated_chunks (chunk_days timespan) start_dt end_dt,
          c.1 ≤ d ∧ d ≤ c.2) ↔ (start_dt ≤ d ∧ d ≤ end_dt)) := by
  refine ⟨?_, ?_, ?_, ?_⟩
  · intro c hc
    exact (chunk_loop_mem _ _ _ start_dt le_rfl c hc).2.1
  · exact chunk_loop_chain _ _ _ start_dt le_rfl
  · exact chunk_loop_pairwise _ _ _ start_dt le_rfl
  · intro d
    constructor
    · rintro ⟨c, hc, hc1, hc2⟩
      have := chunk_loop_mem _ _ _ start_dt le_rfl c hc
      exact ⟨le_trans this.1 hc1, le_trans hc2 this.2.2⟩
    · rintro ⟨hd1, hd2⟩
      exact chunk_loop_cover _ _ _ start_dt le_rfl d hd1 hd2

/-- Witness for C1 at the concrete range 2024-01-01..2024-01-20 with
granularity minute: day 9 of the range is covered by some chunk. -/
theorem chunks_partition_range_witness :
    ∃ c ∈ get_paginated_chunks (chunk_days Timespan.minute)
        (dayOfYear2024 1 1) (dayOfYear2024 1 20), c.1 ≤ 9 ∧ 9 ≤ c.2 :=
  ((chunks_partition_range Timespan.minute (Or.inl rfl)
      (dayOfYear2024 1 1) (dayOfYear2024 1 20) (by decide)).2.2.2 9).mpr
    (by decide)

/-- C2 counterexample: for 2024-01-01..2024-01-20 at granularity
minute the loop does NOT emit the chunks
`[01-01..01-07], [01-08..01-14], [01-15..01-20]` claimed by the spec. -/
theorem minute_example_chunks_counterexample :
    get_paginated_chunks (chunk_days Timespan.minute)
        (dayOfYear2024 1 1) (dayOfYear2024 1 20) ≠
      [(dayOfYear2024 1 1, dayOfYear2024 1 7),
       (dayOfYear2024 1 8, dayOfYear2024 1 14),
       (dayOfYear2024 1 15, dayOfYear2024 1 20)] := by decide

/-- C2 amended: for 2024-01-01..2024-01-20 at granularity minute the
loop emits exactly 3 chunks, with sub-ranges `[01-01..01-08]`,
`[01-09..01-16]` and `[01-17..01-20]` (each full chunk ends
`chunk_days = 7` days after its start, i.e. spans 8 calendar days
inclusive). -/
theorem minute_example_chunks :
    get_paginated_chunks (chunk_days Timespan.minute)
        (dayOfYear2024 1 1) (dayOfYear2024 1 20) =
      [(dayOfYear2024 1 1, dayOfYear2024 1 8),
       (dayOfYear2024 1 9, dayOfYear2024 1 16),
       (dayOfYear2024 1 17, dayOfYear2024 1 20)] := by decide

/-- C3 counterexample: the chunk `[2024-01-01 .. 2024-01-08]` produced
for range 2024-01-01..2024-01-20 at granularity minute spans 8 calendar
days inclusive, exceeding the claimed 7-day inclusive cap. -/
theorem chunk_span_counterexample :
    (dayOfYear2024 1 1, dayOfYear2024 1 8) ∈
      get_paginated_chunks (chunk_days Timespan.minute)
        (dayOfYear2024 1 1) (dayOfYear2024 1 20) ∧
    dayOfYear2024 1 8 + 1 - dayOfYear2024 1 1 > 7 := by decide

/-- C3 amended: every chunk produced by the pagination loop ends at most
`chunk_days timespan` days after it starts, i.e. spans at most
`chunk_days timespan + 1` calendar days inclusive: at most 8 days for
granularity minute, at most 31 days for hour. -/
theorem chunk_span_bounded (timespan : Timespan) (start_dt end_dt : Nat)
    (c : Nat × Nat)
    (hc : c ∈ get_paginated_chunks (chunk_days timespan) start_dt end_dt) :
    c.2 ≤ c.1 + chunk_days timespan ∧
    c.2 + 1 - c.1 ≤ chunk_days timespan + 1 := by
  have h := chunk_loop_span _ _ _ start_dt c hc
  exact ⟨h, by omega⟩

/-- Witness for C3 amended: the first chunk of the minute example obeys
the `start + 7` bound. -/
theorem chunk_span_bounded_witness :
    (1, 8).2 ≤ (1, 8).1 + chunk_days Timespan.minute ∧
    (1, 8).2 + 1 - (1, 8).1 ≤ chunk_days Timespan.minute + 1 :=
  chunk_span_bounded Timespan.minute 1 20 (1, 8) (by decide)

/-- The trace is empty when the cursor is already past the end. -/
theorem trace_loop_nil (cd e : Nat) (fuel s : Nat) (h : e < s) :
    trace_loop cd e fuel s = [] := by
  cases fuel with
  | zero => rfl
  | succ fuel => rw [trace_loop, if_neg (by omega)]

/-- With enough fuel, the event trace of the pagination loop is the
chunk fetches in order with exactly one rate-limit sleep interspersed
between each pair of consecutive fetches. -/
theorem trace_loop_eq_intersperse (cd e : Nat) :
    ∀ fuel s, e + 1 - s ≤ fuel →
      trace_loop cd e fuel s =
        List.intersperse FetchEvent.sleep_wait
          ((chunk_loop cd e fuel s).map
            (fun c => FetchEvent.fetch_chunk c.1 c.2)) := by
  intro fuel
  induction fuel with
  | zero =>
      intro s hfuel
      simp [trace_loop, chunk_loop]
  | succ fuel ih =>
      intro s hfuel
      by_cases hse : s ≤ e
      · rw [trace_loop, if_pos hse, chunk_loop, if_pos hse]
        have hmin1 : s ≤ min (s + cd) e := le_min (Nat.le_add_right s cd) hse
        have hfuel' : e + 1 - (min (s + cd) e + 1) ≤ fuel := by omega
        by_cases hnext : min (s + cd) e + 1 ≤ e
        · cases fuel with
          | zero => omega
          | succ fuel' =>
              rw [if_pos hnext, ih (min (s + cd) e + 1) hfuel']
              rw [chunk_loop, if_pos hnext]
              simp [List.intersperse_cons_cons]
        · rw [if_neg hnext, chunk_loop_nil cd e fuel (min (s + cd) e + 1) (by omega),
            trace_loop_nil cd e fuel (min (s + cd) e + 1) (by omega)]
          simp
      · rw [trace_loop, if_neg hse, chunk_loop, if_neg hse]
        simp

/-- Counting sleeps in an interspersed fetch trace: one fewer than the
number of fetched chunks. -/
theorem countP_sleep_intersperse :
    ∀ l : List (Nat × Nat), l ≠ [] →
      List.countP (fun ev => decide (ev = FetchEvent.sleep_wait))
          (List.intersperse FetchEvent.sleep_wait
            (l.map (fun c => FetchEvent.fetch_chunk c.1 c.2))) + 1 =
        l.length := by
  intro l
  induction l with
  | nil => intro h; exact absurd rfl h
  | cons a t ih =>
      intro _
      cases t with
      | nil => simp [List.countP_cons]
      | cons b t' =>
          have ht : b :: t' ≠ [] := by simp
          have := ih ht
          simp only [List.map_cons] at this ⊢
          rw [List.intersperse_cons_cons]
          simp only [List.countP_cons] at this ⊢
          simp at this ⊢
          omega

/-- C5: in one paginated fetch, the event trace is exactly the chunk
requests in order with one 12-second rate-limit sleep between each
consecutive pair; hence for a non-degenerate range the first event is
the first chunk's request (never a sleep) and the sleep count is exactly
the number of chunk requests minus one. -/
theorem rate_limit_sleep_pattern (timespan : Timespan)
    (start_dt end_dt : Nat) :
    paginate_trace (chunk_days timespan) start_dt end_dt =
      List.intersperse FetchEvent.sleep_wait
        ((get_paginated_chunks (chunk_days timespan) start_dt end_dt).map
          (fun c => FetchEvent.fetch_chunk c.1 c.2)) ∧
    (start_dt ≤ end_dt →
      (paginate_trace (chunk_days timespan) start_dt end_dt).head? =
        some (FetchEvent.fetch_chunk start_dt
          (min (start_dt + chunk_days timespan) end_dt)) ∧
      List.countP (fun ev => decide (ev = FetchEvent.sleep_wait))
          (paginate_trace (chunk_days timespan) start_dt end_dt) + 1 =
        (get_paginated_chunks (chunk_days timespan) start_dt end_dt).length) := by
  have heq := trace_loop_eq_intersperse (chunk_days timespan)
    end_dt (end_dt + 1 - start_dt) start_dt le_rfl
  refine ⟨heq, fun hse => ⟨?_, ?_⟩⟩
  · show (trace_loop _ _ _ _).head? = _
    cases hfuel : end_dt + 1 - start_dt with
    | zero => omega
    | succ fuel => rw [trace_loop, if_pos hse]; rfl
  · have hne : get_paginated_chunks (chunk_days timespan) start_dt end_dt ≠ [] := by
      intro habs
      have := chunk_loop_cover (chunk_days timespan)
        end_dt (end_dt + 1 - start_dt) start_dt le_rfl start_dt le_rfl hse
      rw [show chunk_loop (chunk_days timespan) end_dt
          (end_dt + 1 - start_dt) start_dt =
          get_paginated_chunks (chunk_days timespan) start_dt end_dt from rfl,
        habs] at this
      simp at this
    rw [show paginate_trace (chunk_days timespan) start_dt end_dt =
        trace_loop (chunk_days timespan) end_dt
          (end_dt + 1 - start_dt) start_dt from rfl, heq]
    exact countP_sleep_intersperse _ hne

/-- Witness for C5 at the concrete range 2024-01-01..2024-01-20 with
granularity minute: 3 chunks, 2 sleeps, and the trace starts with the
first chunk's request. -/
theorem rate_limit_sleep_pattern_witness :
    (paginate_trace (chunk_days Timespan.minute) 1 20).head? =
      some (FetchEvent.fetch_chunk 1 (min (1 + chunk_days Timespan.minute) 20)) :=
  ((rate_limit_sleep_pattern Timespan.minute 1 20).2 (by decide)).1

/-- Flattening the accumulated `all_data` of the pagination loop gives
the initial accumulator's rows followed by each planned chunk's own
fetch result, in chunk order: skipping the append for empty chunk
DataFrames changes nothing under concatenation. -/
theorem paginate_loop_flatten
    (provider : Nat → Nat → Except String (List RawAgg)) (cd e : Nat) :
    ∀ fuel s acc,
      (paginate_loop provider cd e fuel s acc).flatten =
        acc.flatten ++
          ((chunk_loop cd e fuel s).map
            (fun c => get_historical_data (provider c.1 c.2))).flatten := by
  intro fuel
  induction fuel with
  | zero =>
      intro s acc
      simp [paginate_loop, chunk_loop]
  | succ fuel ih =>
      intro s acc
      by_cases hse : s ≤ e
      · rw [paginate_loop, chunk_loop]
        simp only [if_pos hse]
        rw [ih]
        by_cases hdf : get_historical_data
            (provider s (min (s + cd) e)) = []
        · simp [hdf]
        · simp [hdf, List.append_assoc]
      · rw [paginate_loop, chunk_loop]
        simp [if_neg hse]

/-- The pagination loop only ever appends non-empty chunk DataFrames to
the accumulator. -/
theorem paginate_loop_no_empty
    (provider : Nat → Nat → Except String (List RawAgg)) (cd e : Nat) :
    ∀ fuel s acc, (∀ l ∈ acc, l ≠ []) →
      ∀ l ∈ paginate_loop provider cd e fuel s acc, l ≠ [] := by
  intro fuel
  induction fuel with
  | zero =>
      intro s acc hacc
      simpa [paginate_loop] using hacc
  | succ fuel ih =>
      intro s acc hacc l hl
      by_cases hse : s ≤ e
      · rw [paginate_loop] at hl
        simp only [if_pos hse] at hl
        refine ih (min (s + cd) e + 1) _ ?_ l hl
        intro l' hl'
        by_cases hdf : get_historical_data (provider s (min (s + cd) e)) = []
        · rw [if_pos hdf] at hl'
          exact hacc l' hl'
        · rw [if_neg hdf] at hl'
          rcases List.mem_append.mp hl' with h | h
          · exact hacc l' h
          · simp at h
            rw [h]
            exact hdf
      · rw [paginate_loop, if_neg hse] at hl
        exact hacc l hl

/-- The result of `get_paginated_data` is the concatenation, in chunk
order, of each chunk's own fetch outcome. -/
theorem get_paginated_data_eq_flatten
    (provider : Nat → Nat → Except String (List RawAgg))
    (start_dt end_dt : Nat) (timespan : Timespan) :
    get_paginated_data provider start_dt end_dt timespan =
      ((get_paginated_chunks (chunk_days timespan) start_dt end_dt).map
        (fun c => get_historical_data (provider c.1 c.2))).flatten := by
  have hfl := paginate_loop_flatten provider (chunk_days timespan)
    end_dt (end_dt + 1 - start_dt) start_dt []
  simp only [List.flatten_nil, List.nil_append] at hfl
  rw [get_paginated_data, combine_all_data]
  by_cases hempty : paginate_loop provider (chunk_days timespan) end_dt
      (end_dt + 1 - start_dt) start_dt [] = []
  · rw [if_pos hempty]
    rw [hempty] at hfl
    simpa using hfl.symm
  · rw [if_neg hempty]
    exact hfl

/-- C6: no chunk failure aborts the paginated fetch.  The final series
equals the concatenation over all planned chunks of that chunk's own
outcome, so chunks that fail (the provider raises, e.g. with
`NOT_AUTHORIZED` in the message, and `get_historical_data` catches and
returns an empty DataFrame) contribute nothing, while every other
chunk's records — earlier and later — are all retained. -/
theorem chunk_failure_does_not_abort
    (provider : Nat → Nat → Except String (List RawAgg))
    (start_dt end_dt : Nat) (timespan : Timespan) :
    get_paginated_data provider start_dt end_dt timespan =
      ((get_paginated_chunks (chunk_days timespan) start_dt end_dt).map
        (fun c => get_historical_data (provider c.1 c.2))).flatten ∧
    ∀ msg : String, get_historical_data (Except.error msg) = [] :=
  ⟨get_paginated_data_eq_flatten provider start_dt end_dt timespan,
    fun _ => rfl⟩

/-- C7: an empty chunk result is success that leaves `all_data`
unchanged; a fetch where every chunk fails or is empty returns an empty
series; and a degenerate range (`end < start`) plans zero chunks and
returns an empty series, with no exception anywhere. -/
theorem empty_and_degenerate_fetches
    (provider : Nat → Nat → Except String (List RawAgg))
    (start_dt end_dt : Nat) (timespan : Timespan) :
    (∀ fuel acc, start_dt ≤ end_dt →
      get_historical_data
          (provider start_dt (min (start_dt + chunk_days timespan) end_dt)) = [] →
      paginate_loop provider (chunk_days timespan) end_dt (fuel + 1)
          start_dt acc =
        paginate_loop provider (chunk_days timespan) end_dt fuel
          (min (start_dt + chunk_days timespan) end_dt + 1) acc) ∧
    ((∀ c ∈ get_paginated_chunks (chunk_days timespan) start_dt end_dt,
        get_historical_data (provider c.1 c.2) = []) →
      get_paginated_data provider start_dt end_dt timespan = []) ∧
    (end_dt < start_dt →
      get_paginated_data provider start_dt end_dt timespan = []) := by
  refine ⟨?_, ?_, ?_⟩
  · intro fuel acc hse hdf
    rw [paginate_loop]
    simp only [if_pos hse, hdf]
    rfl
  · intro hall
    rw [get_paginated_data_eq_flatten]
    simp only [List.flatten_eq_nil_iff]
    intro l hl
    rcases List.mem_map.mp hl with ⟨c, hcmem, hc⟩
    rw [← hc]
    exact hall c hcmem
  · intro hlt
    rw [get_paginated_data_eq_flatten]
    rw [show get_paginated_chunks (chunk_days timespan) start_dt end_dt =
        chunk_loop (chunk_days timespan) end_dt
          (end_dt + 1 - start_dt) start_dt from rfl,
      chunk_loop_nil _ _ _ _ hlt]
    rfl

/-- Witness for C7: a provider failing every chunk over
2024-01-01..2024-01-20 at granularity minute yields an empty series. -/
theorem empty_and_degenerate_fetches_witness :
    get_paginated_data (fun _ _ => Except.error "boom") 1 20
      Timespan.minute = [] :=
  (empty_and_degenerate_fetches (fun _ _ => Except.error "boom")
      1 20 Timespan.minute).2.1 (fun _ _ => rfl)

/-- C4 counterexample: `get_paginated_data` itself performs no swap.
Called directly with start 2024-02-01 and end 2024-01-01 (start > end)
against a provider that returns one record for every chunk, it returns
an empty series, while the same call with the dates in order returns a
non-empty one — so the output neither covers the corrected range nor
matches the in-order call. -/
theorem no_swap_in_engine_counterexample :
    get_paginated_data (fun _ _ => Except.ok [sample_agg])
        (dayOfYear2024 2 1) (dayOfYear2024 1 1) Timespan.minute = [] ∧
    get_paginated_data (fun _ _ => Except.ok [sample_agg])
        (dayOfYear2024 1 1) (dayOfYear2024 2 1) Timespan.minute ≠ [] := by
  decide

/-- C4 amended: the swap of a reversed date range is performed by `main`
(src/restAPI.py lines 270-272) before the engine is invoked, not by
`get_paginated_data`; the engine itself, given `start > end`, plans zero
chunks and returns an empty series without rejecting. -/
theorem reversed_range_swapped_by_main
    (provider : Nat → Nat → Except String (List RawAgg))
    (start_dt end_dt : Nat) (timespan : Timespan)
    (h : end_dt < start_dt) :
    get_paginated_data provider start_dt end_dt timespan = [] ∧
    main_swap start_dt end_dt = (end_dt, start_dt) := by
  refine ⟨(empty_and_degenerate_fetches provider start_dt end_dt
      timespan).2.2 h, ?_⟩
  rw [main_swap, if_pos h]

/-- Witness for C4 amended at the concrete reversed range
(2024-02-01, 2024-01-01). -/
theorem reversed_range_swapped_by_main_witness :
    get_paginated_data (fun _ _ => Except.ok [sample_agg])
        (dayOfYear2024 2 1) (dayOfYear2024 1 1) Timespan.minute = [] ∧
    main_swap (dayOfYear2024 2 1) (dayOfYear2024 1 1) =
      (dayOfYear2024 1 1, dayOfYear2024 2 1) :=
  reversed_range_swapped_by_main (fun _ _ => Except.ok [sample_agg])
    (dayOfYear2024 2 1) (dayOfYear2024 1 1) Timespan.minute (by decide)

/-- C8: merging chunk results in chunk order (the `pd.concat` of
src/restAPI.py lines 130-132, with the empty case of line 134) yields a
series strictly increasing in timestamp — hence with no duplicate
timestamps — provided each chunk's records are individually strictly
increasing and the chunks' time intervals are disjoint and in chunk
order (every record of an earlier chunk is strictly before every record
of a later one). -/
theorem merged_series_strictly_increasing
    (all_data : List (List BarRecord))
    (hsorted : ∀ chunk ∈ all_data,
      List.Pairwise (fun a b => a.timestamp < b.timestamp) chunk)
    (hsep : List.Pairwise
      (fun c1 c2 => ∀ a ∈ c1, ∀ b ∈ c2, a.timestamp < b.timestamp)
      all_data) :
    List.Pairwise (fun a b => a.timestamp < b.timestamp)
      (combine_all_data all_data) := by
  rw [combine_all_data]
  by_cases h : all_data = []
  · rw [if_pos h]
    exact List.Pairwise.nil
  · rw [if_neg h]
    exact List.pairwise_flatten.mpr ⟨hsorted, hsep⟩

/-- Witness for C8: merging two sorted, time-disjoint chunks (records
one minute apart starting 2024-01-01T00:00:00Z) gives a strictly
increasing series. -/
theorem merged_series_strictly_increasing_witness :
    List.Pairwise (fun a b => a.timestamp < b.timestamp)
      (combine_all_data
        [[{ sample_agg with timestamp := 1704067200000 } |> to_bar_record,
          { sample_agg with timestamp := 1704067260000 } |> to_bar_record],
         [{ sample_agg with timestamp := 1704067320000 } |> to_bar_record]]) :=
  merged_series_strictly_increasing _ (by decide) (by decide)

/-- C9: each raw provider record maps to one `BarRecord`:
`timestamp`, `open`, `high`, `low`, `close` and `volume` are copied,
while the optional `vwap` and `transactions` are also copied, so a
record lacking them (`getattr` default `None`) yields absent fields
rather than a failed record; a successful response maps every record. -/
theorem optional_fields_default_to_absent
    (aggs : List RawAgg) (a : RawAgg) :
    get_historical_data (Except.ok aggs) = aggs.map to_bar_record ∧
    (to_bar_record a).timestamp = a.timestamp ∧
    (to_bar_record a).«open» = a.«open» ∧
    (to_bar_record a).high = a.high ∧
    (to_bar_record a).low = a.low ∧
    (to_bar_record a).close = a.close ∧
    (to_bar_record a).volume = a.volume ∧
    (a.vwap = none → (to_bar_record a).vwap = none) ∧
    (a.transactions = none → (to_bar_record a).transactions = none) := by
  refine ⟨?_, rfl, rfl, rfl, rfl, rfl, rfl, fun h => h, fun h => h⟩
  rw [get_historical_data]
  by_cases h : aggs = []
  · rw [if_pos h, h]
    rfl
  · rw [if_neg h]

/-- Witness for C9: the spec's example — two provider records one
minute apart (2024-01-01T00:00:00Z and +60s) without `vwap` or
`transactions` map to two `BarRecord`s with those fields absent. -/
theorem optional_fields_default_to_absent_witness :
    get_historical_data
        (Except.ok [sample_agg,
          { sample_agg with timestamp := 1704067260000 }]) =
      [sample_agg,
        { sample_agg with timestamp := 1704067260000 }].map to_bar_record ∧
    (to_bar_record sample_agg).vwap = none ∧
    (to_bar_record sample_agg).transactions = none := by
  have h := optional_fields_default_to_absent
    [sample_agg, { sample_agg with timestamp := 1704067260000 }] sample_agg
  exact ⟨h.1, h.2.2.2.2.2.2.2.1 rfl, h.2.2.2.2.2.2.2.2 rfl⟩

/-- C10: `get_historical_data` catches every provider exception and
returns an empty DataFrame, whatever the classification of the error
text — classification (lines 71-74) only selects a diagnostic message
and never changes the returned value or control flow. -/
theorem provider_error_yields_empty (msg : String) (c : FailureClass)
    (hc : classify_error msg = c) :
    get_historical_data (Except.error msg) = [] := rfl

/-- Witness for C10: an error message containing `NOT_AUTHORIZED` is
classified `Unauthorized` and the fetch still returns an empty
DataFrame. -/
theorem provider_error_yields_empty_witness :
    get_historical_data (Except.error "some NOT_AUTHORIZED failure") = [] :=
  provider_error_yields_empty "some NOT_AUTHORIZED failure"
    FailureClass.Unauthorized (by decide)

end RestAPI
